import Mathlib

/-!
# Verification of the anystore key/value store

Shallow embedding of `anystore.go` (package `anystore`): the CFB codec
(`Encrypt`/`Decrypt`), the snapshot store operations (`HasKey`, `Load`,
`Store`, `Delete`, `Run`) and the persistence engine (`load`,
`loadStoreAndSave`), together with the theorems settling the specification
claims about them.

Bytes are modelled as `Nat` (the byte values occurring are < 256; only the
XOR structure matters for the claims). The AES block cipher comes from the
Go standard library (`crypto/aes`), external to the repository, so it is a
parameter `E : List Nat → List Nat → List Nat` (key → 16-byte block →
16-byte block); the only fact the claims need about it is that it always
produces a 16-byte block. Likewise `encoding/gob` is external and appears
as a codec parameter pair `gobEnc`/`gobDec`, assumed (where a claim needs
it) to round-trip and to never produce empty output, both true of gob.

Randomness (the IV drawn by `Encrypt` from `crypto/rand`, the temp-file
suffix drawn by `rndstr`) and I/O failures are externalized into explicit
parameters and failure-injection environments, so the file-system
manipulating functions become deterministic state transformers. The
persistence file is modelled by its contents, with `[]` standing for
"missing or empty" (the package treats the two identically on read:
`os.ErrNotExist` yields empty `data`, and an empty file decodes to the
empty mapping).
-/

namespace Anystore

/-- Error outcomes of the package, covering `ErrKeyLength`,
`ErrWroteTooLittle`, the "data shorter than AES block size" error of
`Decrypt`, gob decode/encode errors and the injected I/O errors of the
persistence path. -/
inductive Err where
  | keyLength       -- ErrKeyLength
  | shortInput      -- "data shorter than AES block size (16)"
  | lockOpen        -- syscall.Open of the lock file failed
  | flock           -- syscall.Flock failed
  | ioOpen          -- os.OpenFile of the persistence file failed
  | ioRead          -- io.ReadAll failed
  | decode          -- gob Decode failed
  | encode          -- gob Encode failed
  | openTemp        -- os.OpenFile of the temporary file failed
  | ioWrite         -- tmpf.Write failed
  | wroteTooLittle  -- ErrWroteTooLittle (short write)
  | rename          -- os.Rename failed
deriving DecidableEq, Repr

/-- `aes.BlockSize`: 16 bytes. -/
def blockSize : Nat := 16

/-- Key-length check shared by `Encrypt` and `Decrypt`
(`switch len(key) { case 16, 24, 32: ... }`). -/
def validKeyLength (key : List Nat) : Bool :=
  key.length == 16 || key.length == 24 || key.length == 32

/-- Fuel-indexed body of Go's `cipher.NewCFBEncrypter(block, iv)` followed
by one `XORKeyStream` call over the whole plaintext: CFB-128. The 16-byte
register starts at the IV; each 16-byte chunk of plaintext is XORed
against the encryption of the register and the resulting ciphertext chunk
becomes the next register. `Ek` is the block cipher keyed with the
store's key. The fuel only bounds the recursion depth; any fuel at least
`p.length` (indeed `p.length / 16 + 1`) computes the full stream. -/
def cfbEncryptAux (Ek : List Nat → List Nat) :
    Nat → List Nat → List Nat → List Nat
  | 0, _, _ => []
  | fuel + 1, reg, p =>
    if p = [] then []
    else
      let c := List.zipWith Nat.xor (p.take blockSize) (Ek reg)
      c ++ cfbEncryptAux Ek fuel c (p.drop blockSize)

/-- Go's CFB-128 encryption of a whole buffer. -/
def cfbEncrypt (Ek : List Nat → List Nat) (reg p : List Nat) : List Nat :=
  cfbEncryptAux Ek p.length reg p

/-- Fuel-indexed body of `cipher.NewCFBDecrypter(block, iv)` followed by
one `XORKeyStream` call: same keystream, but the register is fed the
incoming ciphertext chunk. -/
def cfbDecryptAux (Ek : List Nat → List Nat) :
    Nat → List Nat → List Nat → List Nat
  | 0, _, _ => []
  | fuel + 1, reg, c =>
    if c = [] then []
    else
      let p := List.zipWith Nat.xor (c.take blockSize) (Ek reg)
      p ++ cfbDecryptAux Ek fuel (c.take blockSize) (c.drop blockSize)

/-- Go's CFB-128 decryption of a whole buffer. -/
def cfbDecrypt (Ek : List Nat → List Nat) (reg c : List Nat) : List Nat :=
  cfbDecryptAux Ek c.length reg c

/-- `func Encrypt(key []byte, data []byte) ([]byte, error)`: reject a key
that is not 16/24/32 bytes with `ErrKeyLength`, then emit the random IV
followed by the CFB stream over `data`. The IV - drawn in the source from
`crypto/rand` into the first `aes.BlockSize` bytes of the output - is the
explicit argument `iv`. `aes.NewCipher` cannot fail once the length
switch has passed, so its error branch is unreachable and not modelled. -/
def Encrypt (E : List Nat → List Nat → List Nat) (iv : List Nat)
    (key data : List Nat) : Except Err (List Nat) :=
  if validKeyLength key then
    .ok (iv ++ cfbEncrypt (E key) iv data)
  else
    .error .keyLength

/-- `func Decrypt(key []byte, data []byte) ([]byte, error)`: reject a bad
key length, reject inputs shorter than one AES block, then split off the
leading IV block and CFB-decrypt the remainder. -/
def Decrypt (E : List Nat → List Nat → List Nat)
    (key data : List Nat) : Except Err (List Nat) :=
  if validKeyLength key then
    if data.length < blockSize then
      .error .shortInput
    else
      .ok (cfbDecrypt (E key) (data.take blockSize) (data.drop blockSize))
  else
    .error .keyLength

/-! ## The snapshot store and the persistence engine -/

/-- Go's `map[any]any` (`anyMap`), modelled extensionally: a mapping from
keys to optionally present values. -/
def AnyMap (K V : Type) : Type := K → Option V

/-- `make(anyMap)`: the empty mapping. -/
def emptyMap {K V : Type} : AnyMap K V := fun _ => none

/-- Upsert: the fresh map `kvN` the source builds by copying the old map
and then running `kvN[key] = value`. -/
def mapSet {K V : Type} [DecidableEq K] (m : AnyMap K V) (k : K) (v : V) :
    AnyMap K V :=
  fun q => if q = k then some v else m q

/-- Delete: the fresh map after `delete(kvN, key)`. -/
def mapDel {K V : Type} [DecidableEq K] (m : AnyMap K V) (k : K) :
    AnyMap K V :=
  fun q => if q = k then none else m q

/-- The single pending change of a persisted write, i.e. the
`(key, value, remove)` triple `loadStoreAndSave` receives: `Store`
passes `(key, value, false)` (an upsert) and `Delete` passes
`(key, nil, true)` (a removal, the value ignored). -/
inductive Change (K V : Type) where
  | upsert (key : K) (value : V)
  | del (key : K)

/-- The key a change is about. -/
def Change.changedKey {K V : Type} : Change K V → K
  | .upsert k _ => k
  | .del k => k

/-- `if remove { delete(kvN, key) } else { kvN[key] = value }`. -/
def applyChange {K V : Type} [DecidableEq K] (m : AnyMap K V) :
    Change K V → AnyMap K V
  | .upsert k v => mapSet m k v
  | .del k => mapDel m k

/-- The observable state of one `anyStore` plus the piece of the file
system it owns. `kv` is the current snapshot (`a.kv`), `persist` the
`a.persist` flag, `key` the decoded encryption key bytes (`a.key`), and
`file` the contents of the persistence file at `a.savefile` (with `[]`
for missing-or-empty). `tempExists` records whether the write path's
temporary file (`file + "." + rndstr(10)`) is present; outside a call it
is always `false`, since every exit path either never created it,
unlinked it in the deferred cleanup, or renamed it onto the target.
The mutex and the flock are not modelled: the claims are about the
sequential semantics of each operation, and every transition here is one
full critical section. The savefile path and key are taken as set (they
are set by `NewAnyStore` before any operation), so the
`"persistence file not set"` / `"encryption key not set"` type-assertion
errors are unreachable and not modelled. -/
structure StoreState (K V : Type) where
  kv : AnyMap K V
  persist : Bool
  key : List Nat
  file : List Nat
  tempExists : Bool

/-- Failure injection for the read path `anyStore.load`: whether
`os.OpenFile` fails with an error other than `os.ErrNotExist` (a missing
file is not an error there), and whether `io.ReadAll` fails. -/
structure ReadEnv where
  openFails : Bool
  readFails : Bool

/-- Failure injection and randomness for the write path
`anyStore.loadStoreAndSave`, one flag per fallible step in source order,
plus the IV `Encrypt` draws. `syncFails` is the failure of
`tmpf.Sync()`; the source discards that call's error, which is why no
branch of the model reads this flag. -/
structure WriteEnv where
  openLockFails : Bool
  flockFails : Bool
  openFails : Bool
  readFails : Bool
  encodeFails : Bool
  openTempFails : Bool
  writeFails : Bool
  shortWrite : Bool
  syncFails : Bool
  renameFails : Bool
  iv : List Nat

/-- No injected I/O failure on the read path. -/
def ReadEnv.noFailure (env : ReadEnv) : Prop :=
  env.openFails = false ∧ env.readFails = false

/-- No injected failure on any step of the write path. `syncFails` is
deliberately unconstrained: the source ignores the result of
`tmpf.Sync()`, so a failing sync changes nothing. -/
def WriteEnv.noFailure (env : WriteEnv) : Prop :=
  env.openLockFails = false ∧ env.flockFails = false ∧
  env.openFails = false ∧ env.readFails = false ∧
  env.encodeFails = false ∧ env.openTempFails = false ∧
  env.writeFails = false ∧ env.shortWrite = false ∧
  env.renameFails = false

/-- The shared decode block of `load` and `loadStoreAndSave`
(`kvN := make(anyMap); if len(data) > 0 { decrypted := Decrypt(...); if
len(decrypted) > 0 { gob Decode into kvN } }`): empty bytes decode to the
empty mapping without error; otherwise decrypt, and decode unless the
plaintext is empty. -/
def decodeMapBytes {K V : Type}
    (gobDec : List Nat → Except Unit (AnyMap K V))
    (E : List Nat → List Nat → List Nat)
    (key data : List Nat) : Except Err (AnyMap K V) :=
  if data.length > 0 then
    match Decrypt E key data with
    | .error e => .error e
    | .ok decrypted =>
      if decrypted.length > 0 then
        match gobDec decrypted with
        | .ok m => .ok m
        | .error _ => .error .decode
      else .ok emptyMap
  else .ok emptyMap

/-- `func (a *anyStore) load() error`: the read path. Open the
persistence file read-only (a missing file is treated as empty contents),
read it all, decode as in `decodeMapBytes`, and publish the decoded
mapping as the current snapshot. On any error the snapshot is left as it
was. -/
def load {K V : Type}
    (gobDec : List Nat → Except Unit (AnyMap K V))
    (E : List Nat → List Nat → List Nat) (env : ReadEnv)
    (s : StoreState K V) : Except Err Unit × StoreState K V :=
  if env.openFails then (.error .ioOpen, s)
  else if env.readFails then (.error .ioRead, s)
  else
    match decodeMapBytes gobDec E s.key s.file with
    | .error e => (.error e, s)
    | .ok m => (.ok (), { s with kv := m })

/-- `func (a *anyStore) loadStoreAndSave(key, value any, remove bool)
error`: the write path. Take the lock-file flock, open/create and read
the target, decode it, apply the single pending change, publish the
result as the current snapshot (this happens before any byte is
written), gob-encode and encrypt it, write it to a fresh temporary file,
sync (result discarded by the source), and rename the temporary file onto
the target. Every error exit after the temporary file is created unlinks
it in the deferred cleanup (`unlink` stays `true` until after the
rename). -/
def loadStoreAndSave {K V : Type} [DecidableEq K]
    (gobEnc : AnyMap K V → List Nat)
    (gobDec : List Nat → Except Unit (AnyMap K V))
    (E : List Nat → List Nat → List Nat) (env : WriteEnv)
    (s : StoreState K V) (ch : Change K V) :
    Except Err Unit × StoreState K V :=
  if env.openLockFails then (.error .lockOpen, s)
  else if env.flockFails then (.error .flock, s)
  else if env.openFails then (.error .ioOpen, s)
  else if env.readFails then (.error .ioRead, s)
  else
    match decodeMapBytes gobDec E s.key s.file with
    | .error e => (.error e, s)
    | .ok kvIn =>
      let kvN := applyChange kvIn ch
      let s1 : StoreState K V := { s with kv := kvN, tempExists := false }
      if env.encodeFails then (.error .encode, s1)
      else
        match Encrypt E env.iv s.key (gobEnc kvN) with
        | .error e => (.error e, s1)
        | .ok encryptedOutput =>
          if env.openTempFails then (.error .openTemp, s1)
          else if env.writeFails then (.error .ioWrite, s1)
          else if env.shortWrite then (.error .wroteTooLittle, s1)
          else if env.renameFails then (.error .rename, s1)
          else (.ok (), { s1 with file := encryptedOutput })

/-- `func (a *anyStore) Store(key any, value any) error`: under the
process-local lock, either run the persisted write path with
`remove = false`, or build a fresh copy of the snapshot with the entry
set and publish it. -/
def Store {K V : Type} [DecidableEq K]
    (gobEnc : AnyMap K V → List Nat)
    (gobDec : List Nat → Except Unit (AnyMap K V))
    (E : List Nat → List Nat → List Nat) (env : WriteEnv)
    (s : StoreState K V) (k : K) (v : V) :
    Except Err Unit × StoreState K V :=
  if s.persist then loadStoreAndSave gobEnc gobDec E env s (.upsert k v)
  else (.ok (), { s with kv := mapSet s.kv k v })

/-- `func (a *anyStore) Delete(key any) error`: under the process-local
lock, either run the persisted write path with `remove = true`, or build
a fresh copy of the snapshot with the entry removed and publish it. -/
def Delete {K V : Type} [DecidableEq K]
    (gobEnc : AnyMap K V → List Nat)
    (gobDec : List Nat → Except Unit (AnyMap K V))
    (E : List Nat → List Nat → List Nat) (env : WriteEnv)
    (s : StoreState K V) (k : K) :
    Except Err Unit × StoreState K V :=
  if s.persist then loadStoreAndSave gobEnc gobDec E env s (.del k)
  else (.ok (), { s with kv := mapDel s.kv k })

/-- `func (a *anyStore) Load(key any) (any, error)`: when persistence is
on, first re-derive the snapshot from the file (the file is the sole
source of truth) and fail if that fails; then return the snapshot's
binding for the key. Go returns `kv[key]` - the value, or `nil` when
absent - so the result carries an `Option V`, with `none` as the absent
marker. -/
def Load {K V : Type}
    (gobDec : List Nat → Except Unit (AnyMap K V))
    (E : List Nat → List Nat → List Nat) (env : ReadEnv)
    (s : StoreState K V) (k : K) :
    Except Err (Option V) × StoreState K V :=
  if s.persist then
    match load gobDec E env s with
    | (.error e, t) => (.error e, t)
    | (.ok _, t) => (.ok (t.kv k), t)
  else (.ok (s.kv k), s)

/-- `func (a *anyStore) HasKey(key any) bool`: when persistence is on,
run the read path first but discard its error (`a.load()` on line 1471
has its result dropped); then report whether the key is bound in the
current snapshot. -/
def HasKey {K V : Type}
    (gobDec : List Nat → Except Unit (AnyMap K V))
    (E : List Nat → List Nat → List Nat) (env : ReadEnv)
    (s : StoreState K V) (k : K) : Bool × StoreState K V :=
  if s.persist then
    let t := (load gobDec E env s).2
    ((t.kv k).isSome, t)
  else ((s.kv k).isSome, s)

/-- `func (a *anyStore) Run(atomicOperation func(a AnyStore) error)
error`: lock the mutex, wrap the same underlying store in the
non-locking `unsafeAnyStore` view, invoke the batch on it, and return
whatever the batch returns. The batch's result type is any `ε` (Go's
`error` interface admits arbitrary error values); the batch operates on
(and returns) the shared underlying state. -/
def run {K V ε : Type} (s : StoreState K V)
    (atomicOperation : StoreState K V → ε × StoreState K V) :
    ε × StoreState K V :=
  atomicOperation s

/-- `func (u *unsafeAnyStore) Run(atomicOperation ...) error`: the
non-locking view's Run applies its argument immediately, with no further
locking. -/
def unsafeRun {K V ε : Type} (s : StoreState K V)
    (atomicOperation : StoreState K V → ε × StoreState K V) :
    ε × StoreState K V :=
  atomicOperation s

/-! ## Concrete instances for witnesses

A throwaway block cipher and gob codec over `AnyMap Bool Bool`, used only
to instantiate the parameterized theorems at concrete inputs. `constE`
satisfies the block-length contract; `gobEncB`/`gobDecB` form an
injective, never-empty serialization of a two-point mapping, standing in
for gob's (external) self-describing encoding. -/

/-- A degenerate but contract-satisfying block cipher: every block
encrypts to sixteen zero bytes. -/
def constE : List Nat → List Nat → List Nat :=
  fun _ _ => List.replicate blockSize 0

/-- Encode one optional Boolean value as one byte. -/
def encB : Option Bool → Nat
  | none => 0
  | some false => 1
  | some true => 2

/-- Decode one byte back to an optional Boolean value. -/
def decB : Nat → Option (Option Bool)
  | 0 => some none
  | 1 => some (some false)
  | 2 => some (some true)
  | _ => none

/-- Serialize a `Bool → Option Bool` mapping as two bytes. -/
def gobEncB : AnyMap Bool Bool → List Nat :=
  fun m => [encB (m false), encB (m true)]

/-- Deserialize two bytes back to a mapping; anything else is a decode
error. -/
def gobDecB : List Nat → Except Unit (AnyMap Bool Bool) :=
  fun l =>
    match l with
    | [a, b] =>
      match decB a, decB b with
      | some x, some y => .ok (fun q => if q then y else x)
      | _, _ => .error ()
    | _ => .error ()

/-- A fully clean write environment with a sixteen-zero-byte IV. -/
def cleanWriteEnv : WriteEnv :=
  ⟨false, false, false, false, false, false, false, false, false, false,
    List.replicate blockSize 0⟩

/-- A write environment whose only anomaly is a failing `tmpf.Sync()`. -/
def syncFailEnv : WriteEnv :=
  ⟨false, false, false, false, false, false, false, false, true, false,
    List.replicate blockSize 0⟩

/-- A write environment whose only failure is the final rename. -/
def renameFailEnv : WriteEnv :=
  ⟨false, false, false, false, false, false, false, false, false, true,
    List.replicate blockSize 0⟩

/-- A write environment whose only failure is the temp-file write. -/
def writeFailEnv : WriteEnv :=
  ⟨false, false, false, false, false, false, true, false, false, false,
    List.replicate blockSize 0⟩

/-- A clean read environment. -/
def cleanReadEnv : ReadEnv := ⟨false, false⟩

/-- A concrete store state for witnesses: persisted, empty snapshot,
sixteen-zero-byte key, missing/empty file. -/
def sampleState : StoreState Bool Bool :=
  { kv := emptyMap, persist := true, key := List.replicate 16 0,
    file := [], tempExists := false }

/-- The same store with persistence off. -/
def sampleStateNP : StoreState Bool Bool :=
  { kv := emptyMap, persist := false, key := List.replicate 16 0,
    file := [], tempExists := false }

/-- A persisted sample store whose persistence file is non-empty: it is
the zero-IV encryption of the serialized mapping `false ↦ true` (the
leading 16 IV bytes followed by the two ciphertext bytes), so the file
contributes an entry - but not the key `true`. -/
def sampleStateOne : StoreState Bool Bool :=
  { kv := emptyMap, persist := true, key := List.replicate 16 0,
    file := List.replicate 16 0 ++ [2, 0], tempExists := false }

/-! ## XOR and CFB round-trip lemmas -/

lemma xor_xor_self (a b : Nat) : Nat.xor (Nat.xor a b) b = a := by
  show (a ^^^ b) ^^^ b = a
  rw [Nat.xor_assoc, Nat.xor_self, Nat.xor_zero]

lemma zipWith_xor_cancel :
    ∀ (a b : List Nat), a.length ≤ b.length →
      List.zipWith Nat.xor (List.zipWith Nat.xor a b) b = a := by
  intro a
  induction a with
  | nil => intro b _; simp
  | cons x xs ih =>
    intro b hb
    cases b with
    | nil => simp at hb
    | cons y ys =>
      simp only [List.length_cons] at hb
      simp only [List.zipWith_cons_cons]
      rw [xor_xor_self, ih ys (by omega)]

lemma cfbEncryptAux_nil (Ek : List Nat → List Nat) (fuel : Nat)
    (reg : List Nat) : cfbEncryptAux Ek fuel reg [] = [] := by
  cases fuel <;> simp [cfbEncryptAux]

lemma cfbDecryptAux_nil (Ek : List Nat → List Nat) (fuel : Nat)
    (reg : List Nat) : cfbDecryptAux Ek fuel reg [] = [] := by
  cases fuel <;> simp [cfbDecryptAux]

/-- CFB encryption is length preserving (each chunk is XORed against a
16-byte keystream block covering it), for any sufficient fuel. -/
lemma cfbEncryptAux_length (Ek : List Nat → List Nat)
    (hE : ∀ r, (Ek r).length = blockSize) :
    ∀ (n : Nat) (p reg : List Nat), p.length ≤ n →
      (cfbEncryptAux Ek n reg p).length = p.length := by
  intro n
  induction n with
  | zero =>
    intro p reg hp
    have : p = [] := List.length_eq_zero.mp (Nat.le_zero.mp hp)
    subst this
    rw [cfbEncryptAux_nil]
  | succ n ih =>
    intro p reg hp
    by_cases hpn : p = []
    · subst hpn; rw [cfbEncryptAux_nil]
    · have hppos : 0 < p.length := List.length_pos.mpr hpn
      have hbs : blockSize = 16 := rfl
      simp only [cfbEncryptAux, hpn, if_false, List.length_append,
        List.length_zipWith, List.length_take, hE reg]
      rw [ih (p.drop blockSize) _ (by rw [List.length_drop]; omega)]
      rw [List.length_drop]
      omega

/-- CFB decryption is length preserving, for any sufficient fuel. -/
lemma cfbDecryptAux_length (Ek : List Nat → List Nat)
    (hE : ∀ r, (Ek r).length = blockSize) :
    ∀ (n : Nat) (c reg : List Nat), c.length ≤ n →
      (cfbDecryptAux Ek n reg c).length = c.length := by
  intro n
  induction n with
  | zero =>
    intro c reg hc
    have : c = [] := List.length_eq_zero.mp (Nat.le_zero.mp hc)
    subst this
    rw [cfbDecryptAux_nil]
  | succ n ih =>
    intro c reg hc
    by_cases hcn : c = []
    · subst hcn; rw [cfbDecryptAux_nil]
    · have hcpos : 0 < c.length := List.length_pos.mpr hcn
      have hbs : blockSize = 16 := rfl
      simp only [cfbDecryptAux, hcn, if_false, List.length_append,
        List.length_zipWith, List.length_take, hE reg]
      rw [ih (c.drop blockSize) _ (by rw [List.length_drop]; omega)]
      rw [List.length_drop]
      omega

/-- Core CFB round trip: decrypting what was encrypted from the same
register recovers the plaintext, provided the block cipher always
produces a full 16-byte block and both fuels cover the data. -/
lemma cfb_roundtrip_aux (Ek : List Nat → List Nat)
    (hE : ∀ r, (Ek r).length = blockSize) :
    ∀ (n m : Nat) (p reg : List Nat), p.length ≤ n → p.length ≤ m →
      cfbDecryptAux Ek m reg (cfbEncryptAux Ek n reg p) = p := by
  intro n
  induction n with
  | zero =>
    intro m p reg hn _
    have : p = [] := List.length_eq_zero.mp (Nat.le_zero.mp hn)
    subst this
    rw [cfbEncryptAux_nil, cfbDecryptAux_nil]
  | succ n ih =>
    intro m p reg hn hm
    by_cases hpn : p = []
    · subst hpn; rw [cfbEncryptAux_nil, cfbDecryptAux_nil]
    · have hppos : 0 < p.length := List.length_pos.mpr hpn
      obtain ⟨m', rfl⟩ : ∃ m', m = m' + 1 :=
        ⟨m - 1, by omega⟩
      simp only [cfbEncryptAux, hpn, if_false]
      have hbs : blockSize = 16 := rfl
      set c := List.zipWith Nat.xor (p.take blockSize) (Ek reg) with hc
      have hclen : c.length = min p.length blockSize := by
        rw [hc, List.length_zipWith, List.length_take, hE reg]
        omega
      have hcpos : 0 < c.length := by
        rw [hclen]; simp only [lt_min_iff]
        exact ⟨hppos, by norm_num [blockSize]⟩
      have hcne : c ++ cfbEncryptAux Ek n c (p.drop blockSize) ≠ [] := by
        intro habs
        rcases List.append_eq_nil.mp habs with ⟨h1, _⟩
        exact (List.length_pos.mp hcpos) h1
      simp only [cfbDecryptAux, hcne, if_false]
      have hcan : List.zipWith Nat.xor c (Ek reg) = p.take blockSize := by
        rw [hc]
        exact zipWith_xor_cancel (p.take blockSize) (Ek reg)
          (by rw [List.length_take, hE reg]; omega)
      by_cases hlen : p.length ≤ blockSize
      · -- single (possibly partial) block: the recursion bottoms out
        have hdrop : p.drop blockSize = [] :=
          List.drop_eq_nil_of_le hlen
        have hc16 : c.length ≤ blockSize := by rw [hclen]; omega
        rw [hdrop, cfbEncryptAux_nil, List.append_nil,
          List.take_of_length_le hc16, hcan,
          List.drop_eq_nil_of_le hc16, cfbDecryptAux_nil,
          List.append_nil]
        exact List.take_of_length_le hlen
      · -- full first block followed by at least one more byte
        push_neg at hlen
        have hc16 : c.length = blockSize := by rw [hclen]; omega
        have htake :
            (c ++ cfbEncryptAux Ek n c (p.drop blockSize)).take blockSize
              = c := by
          rw [List.take_append_of_le_length (by omega),
            List.take_of_length_le (by omega)]
        have hdrop :
            (c ++ cfbEncryptAux Ek n c (p.drop blockSize)).drop blockSize
              = cfbEncryptAux Ek n c (p.drop blockSize) := by
          rw [List.drop_append_of_le_length (by omega),
            List.drop_eq_nil_of_le (by omega), List.nil_append]
        rw [htake, hdrop, hcan,
          ih m' (p.drop blockSize) c
            (by rw [List.length_drop]; omega)
            (by rw [List.length_drop]; omega)]
        exact List.take_append_drop blockSize p

/-- Round trip at the level of the whole-buffer wrappers. -/
lemma cfb_roundtrip (Ek : List Nat → List Nat)
    (hE : ∀ r, (Ek r).length = blockSize) (reg p : List Nat) :
    cfbDecrypt Ek reg (cfbEncrypt Ek reg p) = p := by
  unfold cfbDecrypt cfbEncrypt
  rw [cfbEncryptAux_length Ek hE p.length p reg le_rfl]
  exact cfb_roundtrip_aux Ek hE p.length p.length p reg le_rfl le_rfl

/-- A key of one of the accepted lengths passes `validKeyLength`. -/
lemma validKeyLength_of (key : List Nat)
    (hkey : key.length = 16 ∨ key.length = 24 ∨ key.length = 32) :
    validKeyLength key = true := by
  rcases hkey with h | h | h <;> simp [validKeyLength, h]

/-- `Decrypt` inverts `Encrypt` on its own output, for any 16-byte IV. -/
lemma decrypt_encrypt (E : List Nat → List Nat → List Nat)
    (hE : ∀ k r, (E k r).length = blockSize)
    (key iv data : List Nat)
    (hkey : validKeyLength key = true) (hiv : iv.length = blockSize) :
    Decrypt E key (iv ++ cfbEncrypt (E key) iv data) = .ok data := by
  unfold Decrypt
  rw [hkey]
  simp only [if_true]
  have hlen : (iv ++ cfbEncrypt (E key) iv data).length =
      blockSize + data.length := by
    rw [List.length_append, hiv, cfbEncrypt,
      cfbEncryptAux_length (E key) (hE key) data.length data iv le_rfl]
  rw [if_neg (by omega)]
  have htake : (iv ++ cfbEncrypt (E key) iv data).take blockSize = iv := by
    rw [List.take_append_of_le_length (by omega),
      List.take_of_length_le (by omega)]
  have hdrop : (iv ++ cfbEncrypt (E key) iv data).drop blockSize =
      cfbEncrypt (E key) iv data := by
    rw [List.drop_append_of_le_length (by omega),
      List.drop_eq_nil_of_le (by omega), List.nil_append]
  rw [htake, hdrop, cfb_roundtrip (E key) (hE key) iv data]

/-- A persisted snapshot written by the write path decodes back to the
mapping it was written from: the file round trip behind claims C2, C4
and C5. Uses that gob never emits empty output and round-trips. -/
lemma decodeMapBytes_encrypt {K V : Type}
    (gobEnc : AnyMap K V → List Nat)
    (gobDec : List Nat → Except Unit (AnyMap K V))
    (E : List Nat → List Nat → List Nat)
    (hE : ∀ k r, (E k r).length = blockSize)
    (hgob : ∀ m, gobDec (gobEnc m) = .ok m)
    (hgobne : ∀ m, gobEnc m ≠ [])
    (key iv : List Nat) (m : AnyMap K V)
    (hkey : validKeyLength key = true) (hiv : iv.length = blockSize) :
    decodeMapBytes gobDec E key (iv ++ cfbEncrypt (E key) iv (gobEnc m)) =
      .ok m := by
  unfold decodeMapBytes
  have hlen : (iv ++ cfbEncrypt (E key) iv (gobEnc m)).length =
      blockSize + (gobEnc m).length := by
    rw [List.length_append, hiv, cfbEncrypt,
      cfbEncryptAux_length (E key) (hE key) _ _ iv le_rfl]
  rw [if_pos (by rw [hlen]; norm_num [blockSize]),
    decrypt_encrypt E hE key iv (gobEnc m) hkey hiv]
  have hpos : 0 < (gobEnc m).length :=
    List.length_pos.mpr (hgobne m)
  dsimp only
  rw [if_pos hpos, hgob m]

/-! ## Map and persistence-path lemmas -/

lemma mapSet_same {K V : Type} [DecidableEq K] (m : AnyMap K V) (k : K)
    (v : V) : mapSet m k v k = some v := by
  simp [mapSet]

lemma mapSet_other {K V : Type} [DecidableEq K] (m : AnyMap K V) (k q : K)
    (v : V) (h : q ≠ k) : mapSet m k v q = m q := by
  simp [mapSet, h]

lemma mapDel_same {K V : Type} [DecidableEq K] (m : AnyMap K V) (k : K) :
    mapDel m k k = none := by
  simp [mapDel]

lemma mapDel_other {K V : Type} [DecidableEq K] (m : AnyMap K V) (k q : K)
    (h : q ≠ k) : mapDel m k q = m q := by
  simp [mapDel, h]

/-- Off the changed key, an applied change leaves the mapping alone. -/
lemma applyChange_other {K V : Type} [DecidableEq K] (m : AnyMap K V)
    (ch : Change K V) (q : K) (h : q ≠ ch.changedKey) :
    applyChange m ch q = m q := by
  cases ch with
  | upsert k v => exact mapSet_other m k q v h
  | del k => exact mapDel_other m k q h

/-- Decoding an empty byte sequence yields the empty mapping, never an
error (the `len(data) > 0` guard). -/
lemma decodeMapBytes_nil {K V : Type}
    (gobDec : List Nat → Except Unit (AnyMap K V))
    (E : List Nat → List Nat → List Nat) (key : List Nat) :
    decodeMapBytes gobDec E key [] = .ok emptyMap := by
  simp [decodeMapBytes]

/-- `Encrypt` only succeeds under a valid-length key. -/
lemma encrypt_ok_validKey (E : List Nat → List Nat → List Nat)
    (iv key data c : List Nat) (h : Encrypt E iv key data = .ok c) :
    validKeyLength key = true := by
  by_cases hv : validKeyLength key
  · exact hv
  · unfold Encrypt at h
    rw [Bool.not_eq_true] at hv
    rw [hv] at h
    simp at h

/-- The read path with no injected failure and a decodable file publishes
the decoded mapping. -/
lemma load_clean {K V : Type}
    (gobDec : List Nat → Except Unit (AnyMap K V))
    (E : List Nat → List Nat → List Nat) (env : ReadEnv)
    (hR : env.noFailure) (s : StoreState K V) (m : AnyMap K V)
    (hfile : decodeMapBytes gobDec E s.key s.file = .ok m) :
    load gobDec E env s = (.ok (), { s with kv := m }) := by
  unfold load
  rw [hR.1, hR.2, hfile]
  rfl

/-- The write path with no injected failure, a valid key and a decodable
file: it applies the pending change to the decoded mapping, publishes the
result, and replaces the file with its encryption. -/
lemma loadStoreAndSave_clean {K V : Type} [DecidableEq K]
    (gobEnc : AnyMap K V → List Nat)
    (gobDec : List Nat → Except Unit (AnyMap K V))
    (E : List Nat → List Nat → List Nat) (env : WriteEnv)
    (hW : env.noFailure) (s : StoreState K V)
    (hkey : validKeyLength s.key = true)
    (m₀ : AnyMap K V)
    (hfile : decodeMapBytes gobDec E s.key s.file = .ok m₀)
    (ch : Change K V) :
    loadStoreAndSave gobEnc gobDec E env s ch =
      (.ok (),
        { s with
            kv := applyChange m₀ ch,
            tempExists := false,
            file := env.iv ++
              cfbEncrypt (E s.key) env.iv
                (gobEnc (applyChange m₀ ch)) }) := by
  obtain ⟨h1, h2, h3, h4, h5, h6, h7, h8, h9⟩ := hW
  simp only [loadStoreAndSave, Encrypt, h1, h2, h3, h4, h5, h6, h7, h8, h9,
    hfile, hkey, Bool.false_eq_true, if_false, if_true]

/-- The write path failing only at the rename: the error surfaces, but
the speculatively published snapshot remains and the target file is left
as it was. -/
lemma loadStoreAndSave_renameFail {K V : Type} [DecidableEq K]
    (gobEnc : AnyMap K V → List Nat)
    (gobDec : List Nat → Except Unit (AnyMap K V))
    (E : List Nat → List Nat → List Nat) (env : WriteEnv)
    (h1 : env.openLockFails = false) (h2 : env.flockFails = false)
    (h3 : env.openFails = false) (h4 : env.readFails = false)
    (h5 : env.encodeFails = false) (h6 : env.openTempFails = false)
    (h7 : env.writeFails = false) (h8 : env.shortWrite = false)
    (h9 : env.renameFails = true) (s : StoreState K V)
    (hkey : validKeyLength s.key = true)
    (m₀ : AnyMap K V)
    (hfile : decodeMapBytes gobDec E s.key s.file = .ok m₀)
    (ch : Change K V) :
    loadStoreAndSave gobEnc gobDec E env s ch =
      (.error .rename,
        { s with
            kv := applyChange m₀ ch,
            tempExists := false }) := by
  simp only [loadStoreAndSave, Encrypt, h1, h2, h3, h4, h5, h6, h7, h8, h9,
    hfile, hkey, Bool.false_eq_true, if_false, if_true]

/-- The write path either succeeds or leaves the target file and the
temp-file slot exactly as they were (given, as is invariant, that no temp
file was pending when the call began). -/
lemma loadStoreAndSave_error_safe {K V : Type} [DecidableEq K]
    (gobEnc : AnyMap K V → List Nat)
    (gobDec : List Nat → Except Unit (AnyMap K V))
    (E : List Nat → List Nat → List Nat) (env : WriteEnv)
    (s : StoreState K V) (ch : Change K V)
    (ht : s.tempExists = false) :
    (loadStoreAndSave gobEnc gobDec E env s ch).1 = .ok () ∨
    ((loadStoreAndSave gobEnc gobDec E env s ch).2.file = s.file ∧
      (loadStoreAndSave gobEnc gobDec E env s ch).2.tempExists = false) := by
  rcases hdec : decodeMapBytes gobDec E s.key s.file with e | m
  · simp only [loadStoreAndSave, hdec]
    repeat' split
    all_goals simp [ht]
  · rcases hEnc : Encrypt E env.iv s.key (gobEnc (applyChange m ch))
      with e | out <;>
    · simp only [loadStoreAndSave, hdec, hEnc]
      repeat' split
      all_goals simp [ht]

/-- A successful write run implies every step was clean: no injected
failure fired, the target file decoded, and the key had a valid length. -/
lemma loadStoreAndSave_ok_inv {K V : Type} [DecidableEq K]
    (gobEnc : AnyMap K V → List Nat)
    (gobDec : List Nat → Except Unit (AnyMap K V))
    (E : List Nat → List Nat → List Nat) (env : WriteEnv)
    (s : StoreState K V) (ch : Change K V)
    (h : (loadStoreAndSave gobEnc gobDec E env s ch).1 = .ok ()) :
    env.openLockFails = false ∧ env.flockFails = false ∧
    env.openFails = false ∧ env.readFails = false ∧
    (∃ m, decodeMapBytes gobDec E s.key s.file = .ok m) ∧
    env.encodeFails = false ∧ validKeyLength s.key = true ∧
    env.openTempFails = false ∧ env.writeFails = false ∧
    env.shortWrite = false ∧ env.renameFails = false := by
  rcases hdec : decodeMapBytes gobDec E s.key s.file with e | m
  · simp only [loadStoreAndSave, hdec] at h
    repeat' split at h
    all_goals simp_all
  · rcases hEnc : Encrypt E env.iv s.key (gobEnc (applyChange m ch))
      with e | out
    · simp only [loadStoreAndSave, hdec, hEnc] at h
      repeat' split at h
      all_goals simp_all
    · simp only [loadStoreAndSave, hdec, hEnc] at h
      repeat' split at h
      all_goals simp_all
      exact encrypt_ok_validKey E env.iv s.key _ out hEnc

/-! ## Facts about the concrete witness codec -/

lemma gobB_roundtrip : ∀ m, gobDecB (gobEncB m) = .ok m := by
  intro m
  have hfun : (fun q => if q then m true else m false) = m := by
    funext q
    cases q <;> rfl
  rcases hm0 : m false with _ | b0 <;> rcases hm1 : m true with _ | b1 <;>
    simp only [gobEncB, gobDecB, hm0, hm1]
  all_goals try cases b0
  all_goals try cases b1
  all_goals simp only [encB, decB]
  all_goals congr 1
  all_goals funext q
  all_goals cases q <;> simp [hm0, hm1]

lemma gobB_ne : ∀ m, gobEncB m ≠ [] := by
  intro m
  simp [gobEncB]

lemma constE_blockLen : ∀ k r, (constE k r).length = blockSize := by
  intro k r
  simp [constE]

/-! ## The claims -/

/-- Claim C1: for every encryption key whose byte length is 16, 24 or 32
and every plaintext byte sequence, including the empty one, decrypting
the encryption of the plaintext under the same key returns the plaintext,
for any (16-byte) IV that Encrypt may have drawn; and Encrypt called with
a 10-byte key fails with the key-length error. -/
theorem C1_encrypt_decrypt_roundtrip
    (E : List Nat → List Nat → List Nat)
    (hE : ∀ k r, (E k r).length = blockSize)
    (key iv data key10 : List Nat)
    (hkey : key.length = 16 ∨ key.length = 24 ∨ key.length = 32)
    (hiv : iv.length = blockSize)
    (h10 : key10.length = 10) :
    (Encrypt E iv key data).bind (fun c => Decrypt E key c) =
      .ok data ∧
    Encrypt E iv key10 data = .error Err.keyLength := by
  have hv := validKeyLength_of key hkey
  constructor
  · have henc : Encrypt E iv key data =
        .ok (iv ++ cfbEncrypt (E key) iv data) := by
      unfold Encrypt
      rw [hv]
      rfl
    rw [henc]
    show Decrypt E key (iv ++ cfbEncrypt (E key) iv data) = .ok data
    exact decrypt_encrypt E hE key iv data hv hiv
  · have h10v : validKeyLength key10 = false := by
      simp [validKeyLength, h10]
    unfold Encrypt
    rw [h10v]
    rfl

/-- Witness for C1 at a concrete 16-byte key, 16-byte IV, two-byte
plaintext and 10-byte bad key. -/
theorem C1_witness :
    (Encrypt constE (List.replicate 16 1) (List.replicate 16 0)
        [5, 7]).bind
      (fun c => Decrypt constE (List.replicate 16 0) c) =
      .ok [5, 7] ∧
    Encrypt constE (List.replicate 16 1) (List.replicate 10 0) [5, 7] =
      .error Err.keyLength :=
  C1_encrypt_decrypt_roundtrip constE constE_blockLen
    (List.replicate 16 0) (List.replicate 16 1) [5, 7]
    (List.replicate 10 0) (Or.inl (by decide)) (by decide) (by decide)

/-- Claim C10: Decrypt returns an error exactly when the key's byte
length is not 16, 24 or 32, or the input is shorter than one 16-byte
cipher block; for any valid-length key - including one different from the
key the data was encrypted under - and any input of at least one block it
succeeds, returning a plaintext 16 bytes shorter than the input, with no
integrity check rejecting a wrong key. -/
theorem C10_decrypt_error_characterization
    (E : List Nat → List Nat → List Nat)
    (hE : ∀ k r, (E k r).length = blockSize) (key data : List Nat) :
    ((validKeyLength key = true ∧ blockSize ≤ data.length) →
      ∃ p, Decrypt E key data = .ok p ∧
        p.length = data.length - blockSize) ∧
    ((validKeyLength key = false ∨ data.length < blockSize) →
      ∃ e, Decrypt E key data = .error e) := by
  constructor
  · rintro ⟨hv, hlen⟩
    refine ⟨cfbDecrypt (E key) (data.take blockSize)
      (data.drop blockSize), ?_, ?_⟩
    · unfold Decrypt
      rw [hv]
      rw [if_neg (show ¬data.length < blockSize by omega)]
      rfl
    · unfold cfbDecrypt
      rw [cfbDecryptAux_length (E key) (hE key) _ _ _ le_rfl,
        List.length_drop]
  · intro h
    unfold Decrypt
    by_cases hv : validKeyLength key = true
    · rcases h with h | h
      · rw [hv] at h
        simp at h
      · rw [hv, if_pos h]
        exact ⟨.shortInput, rfl⟩
    · rw [Bool.not_eq_true] at hv
      rw [hv]
      exact ⟨.keyLength, rfl⟩

/-- Witness for C10 at a concrete 16-byte key and 20-byte input: the
success half applies with plaintext length 4, and instantiating the
error half at a 20-byte input is vacuously available. -/
theorem C10_witness :
    ((validKeyLength (List.replicate 16 0) = true ∧
        blockSize ≤ (List.replicate 20 3).length) →
      ∃ p, Decrypt constE (List.replicate 16 0) (List.replicate 20 3) =
          .ok p ∧
        p.length = (List.replicate 20 3).length - blockSize) ∧
    ((validKeyLength (List.replicate 16 0) = false ∨
        (List.replicate 20 3).length < blockSize) →
      ∃ e, Decrypt constE (List.replicate 16 0) (List.replicate 20 3) =
        .error e) :=
  C10_decrypt_error_characterization constE constE_blockLen
    (List.replicate 16 0) (List.replicate 20 3)

/-- A persisted `Load` after a clean read of a decodable file returns the
decoded mapping's binding. -/
lemma Load_clean_ok {K V : Type}
    (gobDec : List Nat → Except Unit (AnyMap K V))
    (E : List Nat → List Nat → List Nat) (env : ReadEnv)
    (hR : env.noFailure) (t : StoreState K V) (m : AnyMap K V)
    (hdec : decodeMapBytes gobDec E t.key t.file = .ok m)
    (hp : t.persist = true) (k : K) :
    Load gobDec E env t k = (.ok (m k), { t with kv := m }) := by
  unfold Load
  rw [load_clean gobDec E env hR t m hdec, hp]
  rfl

/-- A persisted `HasKey` after a clean read of a decodable file reports
presence in the decoded mapping. -/
lemma HasKey_clean {K V : Type}
    (gobDec : List Nat → Except Unit (AnyMap K V))
    (E : List Nat → List Nat → List Nat) (env : ReadEnv)
    (hR : env.noFailure) (t : StoreState K V) (m : AnyMap K V)
    (hdec : decodeMapBytes gobDec E t.key t.file = .ok m)
    (hp : t.persist = true) (k : K) :
    HasKey gobDec E env t k = ((m k).isSome, { t with kv := m }) := by
  unfold HasKey
  rw [load_clean gobDec E env hR t m hdec, hp]
  rfl

/-- Claim C2: for every key and value, in both persisted and
non-persisted modes, a Store followed by a Load of the same key on the
same store succeeds and observes the stored value as present. For the
persisted mode this needs the run to be clean: no injected I/O failure,
a valid-length encryption key, a decodable (possibly missing/empty)
persistence file, a 16-byte IV, and the gob codec's round trip. -/
theorem C2_store_then_load {K V : Type} [DecidableEq K]
    (gobEnc : AnyMap K V → List Nat)
    (gobDec : List Nat → Except Unit (AnyMap K V))
    (E : List Nat → List Nat → List Nat)
    (hE : ∀ k r, (E k r).length = blockSize)
    (hgob : ∀ m, gobDec (gobEnc m) = .ok m)
    (hgobne : ∀ m, gobEnc m ≠ [])
    (envW : WriteEnv) (envR : ReadEnv)
    (hW : envW.noFailure) (hiv : envW.iv.length = blockSize)
    (hR : envR.noFailure)
    (s : StoreState K V) (hkey : validKeyLength s.key = true)
    (m₀ : AnyMap K V)
    (hfile : decodeMapBytes gobDec E s.key s.file = .ok m₀)
    (k : K) (v : V) :
    (Store gobEnc gobDec E envW s k v).1 = .ok () ∧
    (Load gobDec E envR (Store gobEnc gobDec E envW s k v).2 k).1 =
      .ok (some v) := by
  by_cases hp : s.persist = true
  · have hs := loadStoreAndSave_clean gobEnc gobDec E envW hW s hkey m₀
      hfile (.upsert k v)
    have hstore : Store gobEnc gobDec E envW s k v =
        loadStoreAndSave gobEnc gobDec E envW s (.upsert k v) := by
      unfold Store
      rw [hp]
      rfl
    rw [hstore, hs]
    refine ⟨rfl, ?_⟩
    have hdec2 := decodeMapBytes_encrypt gobEnc gobDec E hE hgob hgobne
      s.key envW.iv (applyChange m₀ (.upsert k v)) hkey hiv
    set s' : StoreState K V :=
      { s with
          kv := applyChange m₀ (.upsert k v),
          tempExists := false,
          file := envW.iv ++ cfbEncrypt (E s.key) envW.iv
            (gobEnc (applyChange m₀ (.upsert k v))) } with hs'
    rw [Load_clean_ok gobDec E envR hR s'
      (applyChange m₀ (.upsert k v)) hdec2 hp k]
    show Except.ok (mapSet m₀ k v k) = Except.ok (some v)
    rw [mapSet_same]
  · rw [Bool.not_eq_true] at hp
    unfold Store Load
    rw [hp]
    simp [mapSet_same]

/-- Witness for C2 at the concrete persisted sample store, on the key
`true` and value `true`. -/
theorem C2_witness :
    (Store gobEncB gobDecB constE cleanWriteEnv sampleState true true).1 =
      .ok () ∧
    (Load gobDecB constE cleanReadEnv
      (Store gobEncB gobDecB constE cleanWriteEnv sampleState
        true true).2 true).1 = .ok (some true) :=
  C2_store_then_load gobEncB gobDecB constE constE_blockLen gobB_roundtrip
    gobB_ne cleanWriteEnv cleanReadEnv
    ⟨rfl, rfl, rfl, rfl, rfl, rfl, rfl, rfl, rfl⟩ (by decide) ⟨rfl, rfl⟩
    sampleState (by decide) emptyMap
    (decodeMapBytes_nil gobDecB constE sampleState.key) true true

/-- Claim C5: a clean persisted write (Store or Delete) publishes, and
writes to the file, exactly the mapping decoded from the file's contents
at the start of the write with the single pending change applied; every
other entry of the reconciled mapping is carried over unchanged. -/
theorem C5_persisted_write_merge {K V : Type} [DecidableEq K]
    (gobEnc : AnyMap K V → List Nat)
    (gobDec : List Nat → Except Unit (AnyMap K V))
    (E : List Nat → List Nat → List Nat)
    (hE : ∀ k r, (E k r).length = blockSize)
    (hgob : ∀ m, gobDec (gobEnc m) = .ok m)
    (hgobne : ∀ m, gobEnc m ≠ [])
    (env : WriteEnv) (hW : env.noFailure)
    (hiv : env.iv.length = blockSize)
    (s : StoreState K V) (hkey : validKeyLength s.key = true)
    (m₀ : AnyMap K V)
    (hfile : decodeMapBytes gobDec E s.key s.file = .ok m₀)
    (ch : Change K V) :
    (loadStoreAndSave gobEnc gobDec E env s ch).1 = .ok () ∧
    (loadStoreAndSave gobEnc gobDec E env s ch).2.kv =
      applyChange m₀ ch ∧
    decodeMapBytes gobDec E s.key
      (loadStoreAndSave gobEnc gobDec E env s ch).2.file =
      .ok (applyChange m₀ ch) ∧
    (∀ q, q ≠ ch.changedKey →
      (loadStoreAndSave gobEnc gobDec E env s ch).2.kv q = m₀ q) := by
  rw [loadStoreAndSave_clean gobEnc gobDec E env hW s hkey m₀ hfile ch]
  refine ⟨rfl, rfl, ?_, ?_⟩
  · exact decodeMapBytes_encrypt gobEnc gobDec E hE hgob hgobne s.key
      env.iv (applyChange m₀ ch) hkey hiv
  · intro q hq
    exact applyChange_other m₀ ch q hq

/-- Witness for C5 at the concrete persisted sample store, deleting the
key `false` from the (empty) reconciled mapping. -/
theorem C5_witness :
    (loadStoreAndSave gobEncB gobDecB constE cleanWriteEnv sampleState
      (.del false)).1 = .ok () ∧
    (loadStoreAndSave gobEncB gobDecB constE cleanWriteEnv sampleState
      (.del false)).2.kv = applyChange emptyMap (.del false) ∧
    decodeMapBytes gobDecB constE sampleState.key
      (loadStoreAndSave gobEncB gobDecB constE cleanWriteEnv sampleState
        (.del false)).2.file = .ok (applyChange emptyMap (.del false)) ∧
    (∀ q, q ≠ (Change.del (V := Bool) false).changedKey →
      (loadStoreAndSave gobEncB gobDecB constE cleanWriteEnv sampleState
        (.del false)).2.kv q = emptyMap q) :=
  C5_persisted_write_merge gobEncB gobDecB constE constE_blockLen
    gobB_roundtrip gobB_ne cleanWriteEnv
    ⟨rfl, rfl, rfl, rfl, rfl, rfl, rfl, rfl, rfl⟩ (by decide)
    sampleState (by decide) emptyMap
    (decodeMapBytes_nil gobDecB constE sampleState.key) (.del false)

/-- Claim C6: with persistence enabled, the read path on a persistence
file that is missing or empty succeeds without error and publishes the
empty mapping as the current snapshot; and decoding an empty byte
sequence is never an error. -/
theorem C6_read_missing_or_empty {K V : Type}
    (gobDec : List Nat → Except Unit (AnyMap K V))
    (E : List Nat → List Nat → List Nat) (env : ReadEnv)
    (hR : env.noFailure) (s : StoreState K V)
    (hp : s.persist = true) (hfile : s.file = []) :
    (load gobDec E env s).1 = .ok () ∧
    (load gobDec E env s).2.kv = (emptyMap : AnyMap K V) ∧
    (∀ key : List Nat,
      decodeMapBytes gobDec E key ([] : List Nat) =
        .ok (emptyMap : AnyMap K V)) := by
  have hdec : decodeMapBytes gobDec E s.key s.file = .ok emptyMap := by
    rw [hfile]
    exact decodeMapBytes_nil gobDec E s.key
  rw [load_clean gobDec E env hR s emptyMap hdec]
  exact ⟨rfl, rfl, fun key => decodeMapBytes_nil gobDec E key⟩

/-- Witness for C6 at the concrete persisted sample store with its
missing/empty file. -/
theorem C6_witness :
    (load gobDecB constE cleanReadEnv sampleState).1 = .ok () ∧
    (load gobDecB constE cleanReadEnv sampleState).2.kv =
      (emptyMap : AnyMap Bool Bool) ∧
    (∀ key : List Nat,
      decodeMapBytes gobDecB constE key ([] : List Nat) =
        .ok (emptyMap : AnyMap Bool Bool)) :=
  C6_read_missing_or_empty gobDecB constE cleanReadEnv ⟨rfl, rfl⟩
    sampleState rfl rfl

/-- Claim C7: with persistence off, Store and Delete succeed and publish
a fresh mapping equal to the prior snapshot with the one entry
added/replaced (respectively removed), leaving every other entry
unchanged. The prior snapshot value itself is untouched - the source
builds the new map by copying and the embedding mirrors that by
construction, publication being a replacement of the current-snapshot
reference. -/
theorem C7_nonpersisted_store_delete {K V : Type} [DecidableEq K]
    (gobEnc : AnyMap K V → List Nat)
    (gobDec : List Nat → Except Unit (AnyMap K V))
    (E : List Nat → List Nat → List Nat) (env : WriteEnv)
    (s : StoreState K V) (hp : s.persist = false) (k : K) (v : V) :
    (Store gobEnc gobDec E env s k v).1 = .ok () ∧
    (Store gobEnc gobDec E env s k v).2.kv = mapSet s.kv k v ∧
    (Store gobEnc gobDec E env s k v).2.kv k = some v ∧
    (∀ q, q ≠ k → (Store gobEnc gobDec E env s k v).2.kv q = s.kv q) ∧
    (Delete gobEnc gobDec E env s k).1 = .ok () ∧
    (Delete gobEnc gobDec E env s k).2.kv = mapDel s.kv k ∧
    (Delete gobEnc gobDec E env s k).2.kv k = none ∧
    (∀ q, q ≠ k → (Delete gobEnc gobDec E env s k).2.kv q = s.kv q) := by
  have hS : Store gobEnc gobDec E env s k v =
      (.ok (), { s with kv := mapSet s.kv k v }) := by
    unfold Store
    rw [hp]
    rfl
  have hD : Delete gobEnc gobDec E env s k =
      (.ok (), { s with kv := mapDel s.kv k }) := by
    unfold Delete
    rw [hp]
    rfl
  rw [hS, hD]
  refine ⟨rfl, rfl, mapSet_same s.kv k v,
    fun q hq => mapSet_other s.kv k q v hq, rfl, rfl, mapDel_same s.kv k,
    fun q hq => mapDel_other s.kv k q hq⟩

/-- Witness for C7 at the concrete non-persisted sample store. -/
theorem C7_witness :
    (Store gobEncB gobDecB constE cleanWriteEnv sampleStateNP
      false true).1 = .ok () ∧
    (Store gobEncB gobDecB constE cleanWriteEnv sampleStateNP
      false true).2.kv = mapSet sampleStateNP.kv false true ∧
    (Store gobEncB gobDecB constE cleanWriteEnv sampleStateNP
      false true).2.kv false = some true ∧
    (∀ q, q ≠ false →
      (Store gobEncB gobDecB constE cleanWriteEnv sampleStateNP
        false true).2.kv q = sampleStateNP.kv q) ∧
    (Delete gobEncB gobDecB constE cleanWriteEnv sampleStateNP
      false).1 = .ok () ∧
    (Delete gobEncB gobDecB constE cleanWriteEnv sampleStateNP
      false).2.kv = mapDel sampleStateNP.kv false ∧
    (Delete gobEncB gobDecB constE cleanWriteEnv sampleStateNP
      false).2.kv false = none ∧
    (∀ q, q ≠ false →
      (Delete gobEncB gobDecB constE cleanWriteEnv sampleStateNP
        false).2.kv q = sampleStateNP.kv q) :=
  C7_nonpersisted_store_delete gobEncB gobDecB constE cleanWriteEnv
    sampleStateNP (by decide) false true

/-- Claim C8: a key never stored - with no persistence file contributing
it - loads as the absent marker without error, and HasKey reports false.
This holds in both modes: with persistence off it reads the snapshot
directly, where the key is unbound; with persistence on, the snapshot is
first re-derived from the file, whose decoded mapping - empty or holding
any other entries - does not bind the key. -/
theorem C8_absent_key {K V : Type}
    (gobDec : List Nat → Except Unit (AnyMap K V))
    (E : List Nat → List Nat → List Nat) (env : ReadEnv)
    (hR : env.noFailure) (s : StoreState K V) (k : K)
    (hk : s.kv k = none) (m : AnyMap K V)
    (hfile : decodeMapBytes gobDec E s.key s.file = .ok m)
    (hm : m k = none) :
    (Load gobDec E env s k).1 = .ok none ∧
    (HasKey gobDec E env s k).1 = false := by
  by_cases hp : s.persist = true
  · rw [Load_clean_ok gobDec E env hR s m hfile hp k,
      HasKey_clean gobDec E env hR s m hfile hp k]
    constructor
    · show Except.ok (m k) = Except.ok none
      rw [hm]
    · show (m k).isSome = false
      rw [hm]
      rfl
  · rw [Bool.not_eq_true] at hp
    unfold Load HasKey
    rw [hp]
    simp only [Bool.false_eq_true, if_false]
    rw [hk]
    exact ⟨rfl, rfl⟩

/-- The non-empty sample file decodes to the one-entry mapping it was
built from (an instance of the encrypt/decode round trip at the literal
bytes of `sampleStateOne.file`). -/
lemma sampleStateOne_decodes :
    decodeMapBytes gobDecB constE sampleStateOne.key
      sampleStateOne.file = .ok (mapSet emptyMap false true) :=
  decodeMapBytes_encrypt gobEncB gobDecB constE constE_blockLen
    gobB_roundtrip gobB_ne (List.replicate 16 0) (List.replicate 16 0)
    (mapSet emptyMap false true) (by decide) (by decide)

/-- Witness for C8 at a concrete persisted store whose non-empty file
holds the entry `false ↦ true` but nothing for the key `true`, which was
never stored. -/
theorem C8_witness :
    (Load gobDecB constE cleanReadEnv sampleStateOne true).1 =
      .ok none ∧
    (HasKey gobDecB constE cleanReadEnv sampleStateOne true).1 = false :=
  C8_absent_key gobDecB constE cleanReadEnv ⟨rfl, rfl⟩ sampleStateOne
    true rfl (mapSet emptyMap false true) sampleStateOne_decodes
    (by decide)

/-- Claim C9: Run returns exactly the value its batch returned - no
wrapping, no substitution - and the state the batch produced stands: a
write performed inside a batch that then errors is kept, with no
rollback. The non-locking view's Run applies its argument immediately,
so a nested Run returns its argument's result unchanged too. -/
theorem C9_run_propagates (K V ε : Type) [DecidableEq K]
    (s : StoreState K V)
    (batch : StoreState K V → ε × StoreState K V) :
    run s batch = batch s ∧
    unsafeRun s batch = batch s ∧
    run s (fun t => unsafeRun t batch) = batch s ∧
    (∀ (gobEnc : AnyMap K V → List Nat)
        (gobDec : List Nat → Except Unit (AnyMap K V))
        (E : List Nat → List Nat → List Nat) (env : WriteEnv)
        (k : K) (v : V) (e : ε),
      run s (fun t => (e, (Store gobEnc gobDec E env t k v).2)) =
        (e, (Store gobEnc gobDec E env s k v).2)) :=
  ⟨rfl, rfl, rfl, fun _ _ _ _ _ _ _ => rfl⟩

/-- Counterexample to claim C3 as stated: the sync (`tmpf.Sync()`) is a
step before the final rename, and the source discards its error. With a
failing sync injected and nothing else failing, the persisted write
returns no error and replaces the target file, instead of failing and
leaving the target untouched. -/
theorem C3_counterexample :
    (loadStoreAndSave gobEncB gobDecB constE syncFailEnv sampleState
      (.upsert true true)).1 = .ok () ∧
    (loadStoreAndSave gobEncB gobDecB constE syncFailEnv sampleState
      (.upsert true true)).2.file ≠ sampleState.file := by
  constructor
  · rfl
  · decide

/-- Claim C3 (amended): for every persisted write, if any step before the
final rename other than the sync fails - open (of the lock file, the
target or the temporary file), flock, read, decrypt, decode, encode,
encrypt, write, or short write - the operation returns an error, the
temporary file is removed, and the target persistence file's contents are
exactly what they were before the operation started. The sync step is
excluded: its error is discarded and the write commits regardless. -/
theorem C3_write_failure_safety {K V : Type} [DecidableEq K]
    (gobEnc : AnyMap K V → List Nat)
    (gobDec : List Nat → Except Unit (AnyMap K V))
    (E : List Nat → List Nat → List Nat) (env : WriteEnv)
    (s : StoreState K V) (ch : Change K V)
    (ht : s.tempExists = false)
    (hfail :
      env.openLockFails = true ∨ env.flockFails = true ∨
      env.openFails = true ∨ env.readFails = true ∨
      (∃ d, decodeMapBytes gobDec E s.key s.file = .error d) ∨
      env.encodeFails = true ∨ validKeyLength s.key = false ∨
      env.openTempFails = true ∨ env.writeFails = true ∨
      env.shortWrite = true) :
    (∃ e, (loadStoreAndSave gobEnc gobDec E env s ch).1 = .error e) ∧
    (loadStoreAndSave gobEnc gobDec E env s ch).2.file = s.file ∧
    (loadStoreAndSave gobEnc gobDec E env s ch).2.tempExists = false := by
  have hnok : (loadStoreAndSave gobEnc gobDec E env s ch).1 ≠ .ok () := by
    intro hok
    obtain ⟨h1, h2, h3, h4, ⟨m, hm⟩, h5, h6, h7, h8, h9, h10⟩ :=
      loadStoreAndSave_ok_inv gobEnc gobDec E env s ch hok
    rcases hfail with h | h | h | h | ⟨d, hd⟩ | h | h | h | h | h <;>
      simp_all
  have herr : ∃ e, (loadStoreAndSave gobEnc gobDec E env s ch).1 =
      .error e := by
    rcases hres : (loadStoreAndSave gobEnc gobDec E env s ch).1 with e | u
    · exact ⟨e, rfl⟩
    · cases u
      exact absurd hres hnok
  rcases loadStoreAndSave_error_safe gobEnc gobDec E env s ch ht with
    hok | ⟨hf, htmp⟩
  · exact absurd hok hnok
  · exact ⟨herr, hf, htmp⟩

/-- Witness for the amended C3: an injected temp-file write failure on
the concrete persisted sample store errors out, removes the temporary
file and leaves the target exactly as it was. -/
theorem C3_witness :
    (∃ e, (loadStoreAndSave gobEncB gobDecB constE writeFailEnv
      sampleState (Change.upsert true true)).1 = .error e) ∧
    (loadStoreAndSave gobEncB gobDecB constE writeFailEnv sampleState
      (Change.upsert true true)).2.file = sampleState.file ∧
    (loadStoreAndSave gobEncB gobDecB constE writeFailEnv sampleState
      (Change.upsert true true)).2.tempExists = false :=
  C3_write_failure_safety gobEncB gobDecB constE writeFailEnv sampleState
    (Change.upsert true true) rfl
    (Or.inr (Or.inr (Or.inr (Or.inr (Or.inr (Or.inr (Or.inr (Or.inr
      (Or.inl rfl)))))))))

/-- Counterexample to claim C4 as stated: with the rename failing and
nothing else, the write errors, yet the published snapshot holds the
failed attempt's binding (`true ↦ true`) - not the mapping of the last
successful read, in which the key was absent. -/
theorem C4_counterexample :
    (loadStoreAndSave gobEncB gobDecB constE renameFailEnv sampleState
      (.upsert true true)).1 = .error Err.rename ∧
    (loadStoreAndSave gobEncB gobDecB constE renameFailEnv sampleState
      (.upsert true true)).2.kv true = some true ∧
    sampleState.kv true = none := by
  refine ⟨rfl, ?_, rfl⟩
  decide

/-- Claim C4 (amended): a persisted write failing at the rename step
surfaces the rename error but leaves the in-memory snapshot holding the
failed attempt's speculatively updated mapping (the publish before the
write is not rolled back). The target file is untouched, however, so the
next persisted read re-derives the last successfully persisted mapping
from the file and publishes it, replacing the stale snapshot. -/
theorem C4_rename_failure {K V : Type} [DecidableEq K]
    (gobEnc : AnyMap K V → List Nat)
    (gobDec : List Nat → Except Unit (AnyMap K V))
    (E : List Nat → List Nat → List Nat) (env : WriteEnv)
    (envR : ReadEnv) (hR : envR.noFailure)
    (h1 : env.openLockFails = false) (h2 : env.flockFails = false)
    (h3 : env.openFails = false) (h4 : env.readFails = false)
    (h5 : env.encodeFails = false) (h6 : env.openTempFails = false)
    (h7 : env.writeFails = false) (h8 : env.shortWrite = false)
    (h9 : env.renameFails = true) (s : StoreState K V)
    (hkey : validKeyLength s.key = true) (m₀ : AnyMap K V)
    (hfile : decodeMapBytes gobDec E s.key s.file = .ok m₀)
    (ch : Change K V) :
    (loadStoreAndSave gobEnc gobDec E env s ch).1 = .error Err.rename ∧
    (loadStoreAndSave gobEnc gobDec E env s ch).2.kv =
      applyChange m₀ ch ∧
    (loadStoreAndSave gobEnc gobDec E env s ch).2.file = s.file ∧
    (load gobDec E envR (loadStoreAndSave gobEnc gobDec E env s ch).2).1 =
      .ok () ∧
    (load gobDec E envR
      (loadStoreAndSave gobEnc gobDec E env s ch).2).2.kv = m₀ := by
  rw [loadStoreAndSave_renameFail gobEnc gobDec E env h1 h2 h3 h4 h5 h6
    h7 h8 h9 s hkey m₀ hfile ch]
  refine ⟨rfl, rfl, rfl, ?_, ?_⟩ <;>
  · rw [load_clean gobDec E envR hR
      { s with kv := applyChange m₀ ch, tempExists := false } m₀ hfile]

/-- Witness for the amended C4 on the concrete persisted sample store:
the rename fails, the snapshot speculatively holds the upsert, the file
is untouched, and the next read re-derives the empty mapping. -/
theorem C4_witness :
    (loadStoreAndSave gobEncB gobDecB constE renameFailEnv sampleState
      (Change.upsert false true)).1 = .error Err.rename ∧
    (loadStoreAndSave gobEncB gobDecB constE renameFailEnv sampleState
      (Change.upsert false true)).2.kv =
      applyChange emptyMap (Change.upsert false true) ∧
    (loadStoreAndSave gobEncB gobDecB constE renameFailEnv sampleState
      (Change.upsert false true)).2.file = sampleState.file ∧
    (load gobDecB constE cleanReadEnv
      (loadStoreAndSave gobEncB gobDecB constE renameFailEnv sampleState
        (Change.upsert false true)).2).1 = .ok () ∧
    (load gobDecB constE cleanReadEnv
      (loadStoreAndSave gobEncB gobDecB constE renameFailEnv sampleState
        (Change.upsert false true)).2).2.kv = emptyMap :=
  C4_rename_failure gobEncB gobDecB constE renameFailEnv cleanReadEnv
    ⟨rfl, rfl⟩ rfl rfl rfl rfl rfl rfl rfl rfl rfl sampleState
    (by decide) emptyMap
    (decodeMapBytes_nil gobDecB constE sampleState.key)
    (Change.upsert false true)

/-- Witness for C9 at a concrete store and a concrete batch that stores
a value and then reports an error: the error comes back verbatim and the
written state stands. -/
theorem C9_witness :
    run sampleStateNP
      (fun t => ((Except.error Err.decode : Except Err Unit), t)) =
      ((Except.error Err.decode : Except Err Unit), sampleStateNP) ∧
    unsafeRun sampleStateNP
      (fun t => ((Except.error Err.decode : Except Err Unit), t)) =
      ((Except.error Err.decode : Except Err Unit), sampleStateNP) ∧
    run sampleStateNP
      (fun t => unsafeRun t
        (fun u => ((Except.error Err.decode : Except Err Unit), u))) =
      ((Except.error Err.decode : Except Err Unit), sampleStateNP) ∧
    (∀ (gobEnc : AnyMap Bool Bool → List Nat)
        (gobDec : List Nat → Except Unit (AnyMap Bool Bool))
        (E : List Nat → List Nat → List Nat) (env : WriteEnv)
        (k : Bool) (v : Bool) (e : Except Err Unit),
      run sampleStateNP
        (fun t => (e, (Store gobEnc gobDec E env t k v).2)) =
        (e, (Store gobEnc gobDec E env sampleStateNP k v).2)) :=
  C9_run_propagates Bool Bool (Except Err Unit) sampleStateNP
    (fun t => ((Except.error Err.decode : Except Err Unit), t))

end Anystore
